import Mathlib

/-!
Verification development for a layered thumbnail editor (TypeScript source:
`src/App.tsx`, `src/utils/imageUtils.ts`, `src/types.ts`).

The shallow embedding below translates the relevant source functions into Lean:
machine numbers become `ℚ` (the arithmetic in the source is exact on the
inputs of interest), JavaScript runtime values that may be `undefined`/`NaN`
become an explicit `JSVal` type, fallible operations return `Except`/`Option`,
and the React component state becomes an explicit `AppState` record that each
handler transforms.  Remote services and image decoding are passed in as
oracle parameters.
-/

/-! ## JavaScript helpers -/

/-- JavaScript `Array.prototype.slice(0, e)` with a possibly-negative end index:
a negative `e` counts from the end of the array, and the result is clamped
to the empty list when the effective end is below zero. -/
def sliceToEnd {α : Type} (l : List α) (e : ℤ) : List α :=
  l.take (if 0 ≤ e then e.toNat else ((l.length : ℤ) + e).toNat)

/-- JavaScript `a || b` specialised to strings: the empty string is falsy. -/
def jsOrS (a b : String) : String :=
  if a = "" then b else a

/-- JavaScript `String.prototype.trim()`: strip leading and trailing whitespace.
Written by structural recursion over the character list so that concrete
calls evaluate inside the kernel. -/
def jsTrim (s : String) : String :=
  ⟨((s.data.dropWhile Char.isWhitespace).reverse.dropWhile Char.isWhitespace).reverse⟩

/-! ## Layout model (`src/types.ts`, `Layout`) -/

/-- Type `Layout` from `src/types.ts`: five numeric transform fields. -/
structure Layout where
  scale : ℚ
  stretchX : ℚ
  stretchY : ℚ
  translateX : ℚ
  translateY : ℚ
deriving DecidableEq, Repr

/-- Constant `DEFAULT_LAYOUT` from `src/App.tsx` lines 13-19. -/
def DEFAULT_LAYOUT : Layout :=
  { scale := 1, stretchX := 1, stretchY := 1, translateX := 0, translateY := 0 }

/-- The five field names of `Layout`, used for keyed in-place updates
(`keyof Layout` in the source). -/
inductive LayoutKey where
  | scale
  | stretchX
  | stretchY
  | translateX
  | translateY
deriving DecidableEq, Repr

/-- Replace one field of a `Layout`, as the spread `{ ...layout, [key]: value }` does. -/
def setField (l : Layout) (k : LayoutKey) (v : ℚ) : Layout :=
  match k with
  | .scale => { l with scale := v }
  | .stretchX => { l with stretchX := v }
  | .stretchY => { l with stretchY := v }
  | .translateX => { l with translateX := v }
  | .translateY => { l with translateY := v }

/-- Read one field of a `Layout` by key. -/
def getField (l : Layout) (k : LayoutKey) : ℚ :=
  match k with
  | .scale => l.scale
  | .stretchX => l.stretchX
  | .stretchY => l.stretchY
  | .translateX => l.translateX
  | .translateY => l.translateY

/-! ## Data model (`src/types.ts`) -/

/-- Type `Layer` from `src/types.ts`. -/
structure Layer where
  id : String
  url : String
  layout : Layout
  name : String
deriving DecidableEq, Repr

/-- Type `ThumbnailVersion` from `src/types.ts`: one immutable composed state in a
project's history. -/
structure ThumbnailVersion where
  id : String
  url : String
  layers : List Layer
  baseLayout : Layout
  prompt : Option String
  timestamp : ℕ
deriving DecidableEq, Repr

/-- Type `Project` from `src/types.ts`.  The `snapshots` field is optional in the
source (`snapshots?: ThumbnailVersion[]`), hence the `Option`. -/
structure Project where
  id : String
  name : String
  thumbnailUrl : String
  timestamp : ℕ
  revisionStack : List ThumbnailVersion
  snapshots : Option (List ThumbnailVersion)
deriving DecidableEq, Repr

/-- Type `EditMode` from `src/types.ts`. -/
inductive EditMode where
  | styles
  | effects
  | transform
  | chat
deriving DecidableEq, Repr

/-! ## Compositor (`src/utils/imageUtils.ts`) -/

/-- A decoded image: its natural pixel dimensions (`img.width`/`img.height`
of a freshly loaded `HTMLImageElement`, which equal the natural ones). -/
structure Img where
  width : ℚ
  height : ℚ
deriving DecidableEq, Repr

/-- A destination rectangle as passed to `ctx.drawImage(img, x, y, w, h)`. -/
structure Rect where
  x : ℚ
  y : ℚ
  w : ℚ
  h : ℚ
deriving DecidableEq, Repr

/-- Constant `canvas.width` in `composeImage` (YouTube standard 16:9). -/
def canvasWidth : ℚ := 1280

/-- Constant `canvas.height` in `composeImage`. -/
def canvasHeight : ℚ := 720

/-- Function `drawWithLayout` from `src/utils/imageUtils.ts` lines 50-56: the
placement rectangle computed for one image under one `Layout`. -/
def drawWithLayout (img : Img) (layout : Layout) : Rect :=
  let targetW := img.width * layout.scale * layout.stretchX
  let targetH := img.height * layout.scale * layout.stretchY
  let x := (canvasWidth - targetW) / 2 + (layout.translateX * canvasWidth / 100)
  let y := (canvasHeight - targetH) / 2 + (layout.translateY * canvasHeight / 100)
  { x := x, y := y, w := targetW, h := targetH }

/-! ### JavaScript-value semantics of the same placement computation

The TypeScript type of `Layout` declares every field as `number`, but data
revived from persistent storage can carry `undefined` fields at runtime, and
the spec talks about exactly that case.  `JSVal` models the runtime values a
layout field can hold; arithmetic coerces `undefined` to `NaN` and `NaN`
propagates through every operation, as in JavaScript. -/

/-- A JavaScript numeric slot: a finite number, `NaN`, or `undefined`. -/
inductive JSVal where
  | num (q : ℚ)
  | nan
  | undef
deriving DecidableEq, Repr

/-- The `ToNumber` coercion applied by JavaScript arithmetic: `undefined ↦ NaN`. -/
def JSVal.toNum : JSVal → JSVal
  | .undef => .nan
  | v => v

/-- JavaScript multiplication on numeric slots (`NaN` propagates). -/
def jsMul (a b : JSVal) : JSVal :=
  match a.toNum, b.toNum with
  | .num x, .num y => .num (x * y)
  | _, _ => .nan

/-- JavaScript addition on numeric slots (`NaN` propagates). -/
def jsAdd (a b : JSVal) : JSVal :=
  match a.toNum, b.toNum with
  | .num x, .num y => .num (x + y)
  | _, _ => .nan

/-- JavaScript subtraction on numeric slots (`NaN` propagates). -/
def jsSub (a b : JSVal) : JSVal :=
  match a.toNum, b.toNum with
  | .num x, .num y => .num (x - y)
  | _, _ => .nan

/-- JavaScript division on numeric slots.  Division by zero never occurs in
the embedded code (the divisors are the literals 2 and 100); it is mapped to
`NaN` here only to keep the function total. -/
def jsDiv (a b : JSVal) : JSVal :=
  match a.toNum, b.toNum with
  | .num x, .num y => if y = 0 then .nan else .num (x / y)
  | _, _ => .nan

/-- A `Layout` as it can exist at runtime: each field possibly `undefined`. -/
structure JSLayout where
  scale : JSVal
  stretchX : JSVal
  stretchY : JSVal
  translateX : JSVal
  translateY : JSVal
deriving DecidableEq, Repr

/-- A placement rectangle whose components may be `NaN`. -/
structure JSRect where
  x : JSVal
  y : JSVal
  w : JSVal
  h : JSVal
deriving DecidableEq, Repr

/-- Function `drawWithLayout` (`src/utils/imageUtils.ts` lines 50-56) re-read under
JavaScript runtime-value semantics: the same four arithmetic lines, with the
layout fields as raw runtime slots.  The source performs no per-field
defaulting here. -/
def drawWithLayoutJS (img : Img) (layout : JSLayout) : JSRect :=
  let targetW := jsMul (jsMul (.num img.width) layout.scale) layout.stretchX
  let targetH := jsMul (jsMul (.num img.height) layout.scale) layout.stretchY
  let x := jsAdd (jsDiv (jsSub (.num canvasWidth) targetW) (.num 2))
    (jsDiv (jsMul layout.translateX (.num canvasWidth)) (.num 100))
  let y := jsAdd (jsDiv (jsSub (.num canvasHeight) targetH) (.num 2))
    (jsDiv (jsMul layout.translateY (.num canvasHeight)) (.num 100))
  { x := x, y := y, w := targetW, h := targetH }

/-- Modelled from the spec: the per-field normalization contract ("consumers
must treat absent/undefined as the documented default (1 for scale/stretch,
0 for translate)"; "malformed (NaN/undefined) inputs must normalize to
defaults before use").  One malformed field falls back to its default. -/
def normalizeField (v : JSVal) (d : ℚ) : ℚ :=
  match v with
  | .num q => q
  | _ => d

/-- Modelled from the spec: a runtime layout with its malformed fields
replaced by the documented defaults scale=1, stretchX=1, stretchY=1,
translateX=0, translateY=0. -/
def normalizeLayout (l : JSLayout) : Layout :=
  { scale := normalizeField l.scale 1
    stretchX := normalizeField l.stretchX 1
    stretchY := normalizeField l.stretchY 1
    translateX := normalizeField l.translateX 0
    translateY := normalizeField l.translateY 0 }

/-- Embed an exact placement rectangle into runtime-value rectangles. -/
def rectToJS (r : Rect) : JSRect :=
  { x := .num r.x, y := .num r.y, w := .num r.w, h := .num r.h }

/-! ### `composeImage` (`src/utils/imageUtils.ts` lines 35-71)

The canvas is abstracted as the ordered list of `drawImage` calls issued on
top of the initial opaque-black fill; image decoding (`loadImage`) is an
oracle `String → Option Img` (`none` = the load promise rejected). -/

/-- One `ctx.drawImage(img, x, y, w, h)` call. -/
structure DrawOp where
  img : Img
  rect : Rect
deriving DecidableEq, Repr

/-- The layer loop of `composeImage`: each layer's image is loaded and drawn
with its own layout; a failed load is caught, logged and skipped. -/
def layerOps (load : String → Option Img) (layers : List Layer) : List DrawOp :=
  layers.filterMap fun layer =>
    (load layer.url).map fun li => { img := li, rect := drawWithLayout li layer.layout }

/-- Function `composeImage` from `src/utils/imageUtils.ts` lines 35-71: draw the base
image under `baseLayout`, then every layer in order; a layer whose load fails
is skipped, while a failing base load rejects the whole operation. -/
def composeImage (load : String → Option Img) (imageUrl : String)
    (baseLayout : Layout) (layers : List Layer) : Except String (List DrawOp) :=
  match load imageUrl with
  | none => Except.error "Failed to load base image"
  | some baseImg =>
    Except.ok ({ img := baseImg, rect := drawWithLayout baseImg baseLayout } ::
      layerOps load layers)

/-! ## Session state and handlers (`src/App.tsx`)

The React component's `useState` hooks that the verified operations touch
become the fields of `AppState`; each handler is a state transformer.
Randomly generated ids and `Date.now()` timestamps enter as parameters. -/

/-- The session state held by the `App` component (`src/App.tsx` lines
76-98), restricted to the fields the embedded operations read or write. -/
structure AppState where
  history : List ThumbnailVersion
  currentIdx : ℤ
  projects : List Project
  activeProjectId : Option String
  isProcessing : Bool
  prompt : String
  error : Option String
  baseLayout : Layout
  activeLayerId : String
  editMode : EditMode
deriving DecidableEq, Repr

/-- Derived value `currentVersion` (`src/App.tsx` line 107):
`currentIdx >= 0 && currentIdx < history.length ? history[currentIdx] : null`. -/
def currentVersion (s : AppState) : Option ThumbnailVersion :=
  if 0 ≤ s.currentIdx ∧ s.currentIdx < (s.history.length : ℤ) then
    s.history[s.currentIdx.toNat]?
  else none

/-- Function `addToHistory` (`src/App.tsx` lines 181-193): build the new version,
truncate the history to `slice(0, currentIdx + 1)`, push, and point
`currentIdx` at the new last entry.  `newId`/`now` stand for the random id
and `Date.now()`. -/
def addToHistory (s : AppState) (url : String) (p : Option String)
    (layers : List Layer) (customBaseLayout : Option Layout)
    (newId : String) (now : ℕ) : AppState :=
  let newVersion : ThumbnailVersion :=
    { id := newId, url := url, layers := layers,
      baseLayout := customBaseLayout.getD s.baseLayout, prompt := p, timestamp := now }
  let newHistory := sliceToEnd s.history (s.currentIdx + 1) ++ [newVersion]
  { s with history := newHistory, currentIdx := (newHistory.length : ℤ) - 1 }

/-- Function `removeLayer` (`src/App.tsx` lines 312-318): filter the id out of the
current version's layers and append the result as a new version;
unconditional once a current version exists. -/
def removeLayer (s : AppState) (id : String) (newId : String) (now : ℕ) : AppState :=
  match currentVersion s with
  | none => s
  | some cv =>
    let updatedLayers := cv.layers.filter fun l => !(l.id == id)
    let s' := addToHistory s cv.url (some "Removed Layer") updatedLayers none newId now
    if s.activeLayerId = id then { s' with activeLayerId := "base" } else s'

/-- Function `updateActiveTransform` (`src/App.tsx` lines 134-152): replace one field
of the active layout (base or one layer) in place on the version at
`currentIdx`, without appending to the history. -/
def updateActiveTransform (s : AppState) (k : LayoutKey) (v : ℚ) : AppState :=
  if s.activeLayerId = "base" then
    let nextLayout := setField s.baseLayout k v
    let s₁ := { s with baseLayout := nextLayout }
    match currentVersion s with
    | some cv =>
      { s₁ with history := s.history.set s.currentIdx.toNat { cv with baseLayout := nextLayout } }
    | none => s₁
  else
    match currentVersion s with
    | some cv =>
      let updatedLayers := cv.layers.map fun l =>
        if l.id = s.activeLayerId then { l with layout := setField l.layout k v } else l
      { s with history := s.history.set s.currentIdx.toNat { cv with layers := updatedLayers } }
    | none => s

/-- Constant `MAX_SNAPSHOTS` (`src/App.tsx` line 926). -/
def MAX_SNAPSHOTS : ℕ := 12

/-- Function `createSnapshot` (`src/App.tsx` lines 256-267): with an active version
and an active project id, prepend a timestamp-refreshed copy of the current
version to the active project's snapshots (`activeProject?.snapshots || []`)
and truncate to `MAX_SNAPSHOTS`; otherwise return unchanged. -/
def createSnapshot (s : AppState) (now : ℕ) : AppState :=
  match currentVersion s, s.activeProjectId with
  | some cv, some pid =>
    let activeProject := s.projects.find? fun p => p.id == pid
    let currentSnapshots := (activeProject.bind Project.snapshots).getD []
    let newSnapshot := { cv with timestamp := now }
    let updatedSnapshots := (newSnapshot :: currentSnapshots).take MAX_SNAPSHOTS
    { s with projects := s.projects.map fun p =>
        if p.id = pid then { p with snapshots := some updatedSnapshots } else p }
  | _, _ => s

/-- Function `storeCurrentProjectState` (`src/App.tsx` lines 195-225): with a current
version, either rewrite the project whose id equals the (truthy) active
project id, or — only when the active id is `null` — prepend a fresh project
and adopt it as active. -/
def storeCurrentProjectState (s : AppState) (newId : String) (now : ℕ) : AppState :=
  match currentVersion s with
  | none => s
  | some cv =>
    match s.activeProjectId with
    | some pid =>
      { s with projects := s.projects.map fun p =>
          if p.id = pid then
            { p with thumbnailUrl := cv.url, revisionStack := s.history, timestamp := now }
          else p }
    | none =>
      let newProject : Project :=
        { id := newId, name := "Thumbnail " ++ toString (s.projects.length + 1),
          thumbnailUrl := cv.url, timestamp := now,
          revisionStack := s.history, snapshots := some [] }
      { s with projects := newProject :: s.projects, activeProjectId := some newId }

/-- Expression `(customPrompt || prompt).trim()` from the first line of `handleEdit`:
an absent or empty custom prompt falls back to the prompt state. -/
def rawPromptOf (customPrompt : Option String) (statePrompt : String) : String :=
  jsTrim (match customPrompt with
    | some c => jsOrS c statePrompt
    | none => statePrompt)

/-- Function `handleEdit` (`src/App.tsx` lines 388-405).  `load` is the image-decode
oracle feeding `composeImage`; `editResult` is the outcome of the remote
`editImage` call.  The guard, the compose step, the success path
(`addToHistory` with empty layers and `DEFAULT_LAYOUT`, reset of
`baseLayout` and `prompt`), the `catch` path, and the `finally` clearing of
`isProcessing` are all translated. -/
def handleEdit (s : AppState) (customPrompt : Option String)
    (load : String → Option Img) (editResult : Except String String)
    (newId : String) (now : ℕ) : AppState :=
  let rawPrompt := rawPromptOf customPrompt s.prompt
  match currentVersion s with
  | none => s
  | some cv =>
    if rawPrompt = "" ∧ s.editMode ≠ EditMode.transform then s
    else
      let s₁ := { s with isProcessing := true }
      match composeImage load cv.url s.baseLayout cv.layers with
      | Except.error _ =>
        { s₁ with error := some "Visual synthesis failed. Please try again.",
                  isProcessing := false }
      | Except.ok _ =>
        match editResult with
        | Except.error _ =>
          { s₁ with error := some "Visual synthesis failed. Please try again.",
                    isProcessing := false }
        | Except.ok result =>
          let s₂ := addToHistory s₁ result
            (some (jsOrS rawPrompt "AI Edit")) [] (some DEFAULT_LAYOUT) newId now
          { s₂ with baseLayout := DEFAULT_LAYOUT, prompt := "", isProcessing := false }

/-- Function `handleGenerateFromScratch` (`src/App.tsx` lines 407-418): no guard at
all; on a successful remote generation the result is appended with empty
layers and `DEFAULT_LAYOUT`, on failure an error is set; `isProcessing` is
cleared in `finally` either way. -/
def handleGenerateFromScratch (s : AppState) (templatePrompt : String)
    (genResult : Except String String) (newId : String) (now : ℕ) : AppState :=
  let s₁ := { s with isProcessing := true }
  match genResult with
  | Except.ok result =>
    let s₂ := addToHistory s₁ result (some templatePrompt) [] (some DEFAULT_LAYOUT) newId now
    { s₂ with isProcessing := false }
  | Except.error _ =>
    { s₁ with error := some "Background generation failed.", isProcessing := false }

/-! ## Shared sample data for witnesses and counterexamples -/

/-- A minimal sample version with a given id. -/
def mkV (nm : String) : ThumbnailVersion :=
  { id := nm, url := "url" ++ nm, layers := [], baseLayout := DEFAULT_LAYOUT,
    prompt := none, timestamp := 0 }

/-- A baseline sample session state over a given history and index. -/
def mkS (h : List ThumbnailVersion) (i : ℤ) : AppState :=
  { history := h, currentIdx := i, projects := [], activeProjectId := none,
    isProcessing := false, prompt := "", error := none,
    baseLayout := DEFAULT_LAYOUT, activeLayerId := "base", editMode := .styles }

/-- Decode oracle for the C4 witness: every reference resolves to a 100×50
image except `"bad.png"`, which fails. -/
def loadW : String → Option Img :=
  fun u => if u = "bad.png" then none else some { width := 100, height := 50 }

/-- Sample layer for the C4 witness. -/
def layW (nm : String) : Layer :=
  { id := nm, url := nm ++ ".png", layout := DEFAULT_LAYOUT, name := nm }

/-- Sample version with one layer, for the C7 witness. -/
def vX : ThumbnailVersion :=
  { id := "V", url := "urlV",
    layers := [{ id := "L1", url := "lay1", layout := DEFAULT_LAYOUT, name := "Layer 1" }],
    baseLayout := DEFAULT_LAYOUT, prompt := none, timestamp := 0 }

/-- Stored project with a full snapshot list, for the C6 witness. -/
def projP : Project :=
  { id := "P", name := "Thumbnail 1", thumbnailUrl := "urlA", timestamp := 0,
    revisionStack := [mkV "A"], snapshots := some (List.replicate MAX_SNAPSHOTS (mkV "S")) }

/-- Session state owning `projP` as active project, for the C6 witness. -/
def sC6 : AppState :=
  { mkS [mkV "A"] 0 with projects := [projP], activeProjectId := some "P" }

/-- The snapshot list expected after the C6 witness call: fresh copy first,
truncated at the cap. -/
def snapsC6 : List ThumbnailVersion :=
  ({ mkV "A" with timestamp := 7 } :: projP.snapshots.getD []).take MAX_SNAPSHOTS

/-- Session state with a stale active-project id, for the C8 counterexample. -/
def sC8 : AppState := { mkS [mkV "A"] 0 with activeProjectId := some "ghost" }

/-- Session state that is already busy, for the C9 counterexample. -/
def sBusy : AppState := { mkS [mkV "A"] 0 with isProcessing := true, prompt := "x" }

/-! ## Claims -/

/-- C1: the spec claims that a Layout with missing/undefined numeric fields
behaves, inside the compose placement, exactly like the same Layout with the
explicit defaults substituted.  The placement code (`drawWithLayout`,
`src/utils/imageUtils.ts` lines 50-56) performs no such per-field
normalization: with `scale` undefined and an image of natural size 100×50,
the computed width slot is `NaN` (so `drawImage` silently draws nothing)
instead of the defaulted width 100 at x = 590.  The preview path
(`src/App.tsx` line 591) does coalesce each field with `?? 1` / `?? 0`, so
compose and preview disagree on the same stored layout. -/
theorem drawWithLayout_skips_field_normalization :
    drawWithLayoutJS { width := 100, height := 50 }
        { scale := .undef, stretchX := .num 1, stretchY := .num 1,
          translateX := .num 0, translateY := .num 0 }
      ≠ rectToJS (drawWithLayout { width := 100, height := 50 }
          (normalizeLayout
            { scale := .undef, stretchX := .num 1, stretchY := .num 1,
              translateX := .num 0, translateY := .num 0 }))
    ∧ (drawWithLayoutJS { width := 100, height := 50 }
        { scale := .undef, stretchX := .num 1, stretchY := .num 1,
          translateX := .num 0, translateY := .num 0 }).w = JSVal.nan
    ∧ (drawWithLayout { width := 100, height := 50 }
        (normalizeLayout
          { scale := .undef, stretchX := .num 1, stretchY := .num 1,
            translateX := .num 0, translateY := .num 0 })).w = 100 := by
  refine ⟨by decide, by decide, ?_⟩
  norm_num [drawWithLayout, normalizeLayout, normalizeField]

/-- C5: for every image with natural dimensions and every Layout, the
compositor's placement has rendered width `naturalWidth * scale * stretchX`,
rendered height `naturalHeight * scale * stretchY`, and a position equal to
the centered position offset by
`(translateX/100 * canvasWidth, translateY/100 * canvasHeight)`. -/
theorem drawWithLayout_size_and_position (img : Img) (layout : Layout) :
    (drawWithLayout img layout).w = img.width * layout.scale * layout.stretchX
    ∧ (drawWithLayout img layout).h = img.height * layout.scale * layout.stretchY
    ∧ (drawWithLayout img layout).x
        = (canvasWidth - img.width * layout.scale * layout.stretchX) / 2
          + layout.translateX / 100 * canvasWidth
    ∧ (drawWithLayout img layout).y
        = (canvasHeight - img.height * layout.scale * layout.stretchY) / 2
          + layout.translateY / 100 * canvasHeight := by
  refine ⟨rfl, rfl, ?_, ?_⟩ <;> simp only [drawWithLayout] <;> ring

/-- C4: if decoding one layer's image fails, `composeImage` skips exactly
that layer and still returns the base plus all remaining layers in order
(no error); if decoding the base image fails, `composeImage` fails with an
error surfaced to the caller. -/
theorem composeImage_layer_skip_base_fatal (load : String → Option Img)
    (url : String) (bl : Layout) (l₁ l₂ : List Layer) (bad : Layer)
    (hbad : load bad.url = none) :
    composeImage load url bl (l₁ ++ bad :: l₂) = composeImage load url bl (l₁ ++ l₂)
    ∧ (∀ b, load url = some b →
        composeImage load url bl (l₁ ++ bad :: l₂)
          = Except.ok ({ img := b, rect := drawWithLayout b bl }
              :: (layerOps load l₁ ++ layerOps load l₂)))
    ∧ (load url = none →
        ∃ msg, composeImage load url bl (l₁ ++ bad :: l₂) = Except.error msg) := by
  have hops : layerOps load (l₁ ++ bad :: l₂) = layerOps load l₁ ++ layerOps load l₂ := by
    unfold layerOps
    rw [List.filterMap_append, List.filterMap_cons]
    simp [hbad]
  have hops₂ : layerOps load (l₁ ++ l₂) = layerOps load l₁ ++ layerOps load l₂ := by
    unfold layerOps
    rw [List.filterMap_append]
  refine ⟨?_, ?_, ?_⟩
  · cases h : load url
    · simp [composeImage, h]
    · simp only [composeImage, h]
      rw [hops, hops₂]
  · intro b hb
    simp only [composeImage, hb]
    rw [hops]
  · intro h
    exact ⟨"Failed to load base image", by simp [composeImage, h]⟩

/-- C4 witness: with a concrete decoder failing on the middle layer only,
composing base + [g1, bad, g2] equals composing base + [g1, g2], and with the
base reference failing the whole composition errors. -/
theorem composeImage_layer_skip_base_fatal_witness :
    loadW (layW "bad").url = none
    ∧ composeImage loadW "base" DEFAULT_LAYOUT ([layW "g1"] ++ layW "bad" :: [layW "g2"])
        = composeImage loadW "base" DEFAULT_LAYOUT ([layW "g1"] ++ [layW "g2"])
    ∧ (∃ msg,
        composeImage loadW "bad.png" DEFAULT_LAYOUT ([layW "g1"] ++ layW "bad" :: [layW "g2"])
          = Except.error msg) :=
  ⟨rfl,
   (composeImage_layer_skip_base_fatal loadW "base" DEFAULT_LAYOUT
      [layW "g1"] [layW "g2"] (layW "bad") rfl).1,
   (composeImage_layer_skip_base_fatal loadW "bad.png" DEFAULT_LAYOUT
      [layW "g1"] [layW "g2"] (layW "bad") rfl).2.2 rfl⟩

/-- Core behaviour of `addToHistory` when the current index is in the
documented range: the truncation end `currentIdx + 1` is non-negative, so the
JavaScript slice is an ordinary prefix, the new version is pushed after it,
and the index moves to the new last slot. -/
lemma addToHistory_spec (s : AppState) (url : String) (p : Option String)
    (layers : List Layer) (custom : Option Layout) (newId : String) (now : ℕ)
    (h₁ : -1 ≤ s.currentIdx) (h₂ : s.currentIdx < (s.history.length : ℤ)) :
    (addToHistory s url p layers custom newId now).history
      = s.history.take (s.currentIdx + 1).toNat
        ++ [{ id := newId, url := url, layers := layers,
              baseLayout := custom.getD s.baseLayout, prompt := p, timestamp := now }]
    ∧ (addToHistory s url p layers custom newId now).currentIdx = s.currentIdx + 1 := by
  have h0 : (0:ℤ) ≤ s.currentIdx + 1 := by omega
  constructor
  · unfold addToHistory sliceToEnd
    simp only [if_pos h0]
  · unfold addToHistory sliceToEnd
    simp only [if_pos h0]
    simp [List.length_take]
    omega

/-- C2: for a current index in `[-1, history.length - 1]`, appending a new
version truncates the history to the prefix `[0, currentIndex]`, pushes the
new version, and sets the index to the new last position (equivalently, to
the old index plus one). -/
theorem appendVersion_branch_on_write (s : AppState) (url : String)
    (p : Option String) (layers : List Layer) (custom : Option Layout)
    (newId : String) (now : ℕ)
    (h₁ : -1 ≤ s.currentIdx) (h₂ : s.currentIdx ≤ (s.history.length : ℤ) - 1) :
    (addToHistory s url p layers custom newId now).history
      = s.history.take (s.currentIdx + 1).toNat
        ++ [{ id := newId, url := url, layers := layers,
              baseLayout := custom.getD s.baseLayout, prompt := p, timestamp := now }]
    ∧ (s.history.take (s.currentIdx + 1).toNat).length = (s.currentIdx + 1).toNat
    ∧ (addToHistory s url p layers custom newId now).currentIdx
        = ((addToHistory s url p layers custom newId now).history.length : ℤ) - 1
    ∧ (addToHistory s url p layers custom newId now).currentIdx = s.currentIdx + 1 := by
  have h₂' : s.currentIdx < (s.history.length : ℤ) := by omega
  obtain ⟨hh, hi⟩ := addToHistory_spec s url p layers custom newId now h₁ h₂'
  refine ⟨hh, ?_, ?_, hi⟩
  · rw [List.length_take]
    omega
  · rw [hh, hi]
    simp [List.length_take]
    omega

/-- C2 witness: appending `D` to history `[A, B, C]` at index 1 yields
`[A, B, D]` with index 2 (`C` discarded), and appending to the empty history
at index −1 yields `[D]` with index 0. -/
theorem appendVersion_branch_on_write_witness :
    ((-1:ℤ) ≤ 1 ∧ (1:ℤ) ≤ (([mkV "A", mkV "B", mkV "C"].length : ℤ) - 1))
    ∧ (addToHistory (mkS [mkV "A", mkV "B", mkV "C"] 1) "urlD" none [] none "D" 9).history
        = [mkV "A", mkV "B",
           { id := "D", url := "urlD", layers := [], baseLayout := DEFAULT_LAYOUT,
             prompt := none, timestamp := 9 }]
    ∧ (addToHistory (mkS [mkV "A", mkV "B", mkV "C"] 1) "urlD" none [] none "D" 9).currentIdx = 2
    ∧ (addToHistory (mkS [] (-1)) "urlD" none [] none "D" 9).history
        = [{ id := "D", url := "urlD", layers := [], baseLayout := DEFAULT_LAYOUT,
             prompt := none, timestamp := 9 }]
    ∧ (addToHistory (mkS [] (-1)) "urlD" none [] none "D" 9).currentIdx = 0 := by
  have h := appendVersion_branch_on_write (mkS [mkV "A", mkV "B", mkV "C"] 1)
    "urlD" none [] none "D" 9 (by decide) (by decide)
  have h' := appendVersion_branch_on_write (mkS [] (-1))
    "urlD" none [] none "D" 9 (by decide) (by decide)
  refine ⟨⟨by decide, by decide⟩, ?_, ?_, ?_, ?_⟩
  · rw [h.1]; decide
  · rw [h.2.2.2]; decide
  · rw [h'.1]; decide
  · rw [h'.2.2.2]; decide

/-- A defined `currentVersion` pins the index inside the history and returns
the entry stored there. -/
lemma currentVersion_bounds {s : AppState} {cv : ThumbnailVersion}
    (h : currentVersion s = some cv) :
    0 ≤ s.currentIdx ∧ s.currentIdx < (s.history.length : ℤ)
      ∧ s.history[s.currentIdx.toNat]? = some cv := by
  by_cases hc : 0 ≤ s.currentIdx ∧ s.currentIdx < (s.history.length : ℤ)
  · exact ⟨hc.1, hc.2, by simpa [currentVersion, hc] using h⟩
  · simp [currentVersion, hc] at h

/-- C3 counterexample: calling `removeLayer` with an id that is absent from
the current version's (empty) layer list is NOT a no-op — the history and the
current index both change, because a new version is appended regardless. -/
theorem removeLayer_nonexistent_id_counterexample :
    (removeLayer (mkS [mkV "A"] 0) "ghost" "B" 5).history ≠ (mkS [mkV "A"] 0).history
    ∧ (removeLayer (mkS [mkV "A"] 0) "ghost" "B" 5).currentIdx ≠ (mkS [mkV "A"] 0).currentIdx
    ∧ (removeLayer (mkS [mkV "A"] 0) "ghost" "B" 5).history.length = 2 := by
  decide

/-- C3 (amended): with no current version `removeLayer` is the identity, and
with a current version whose layers do not contain the id no error is raised
and the surviving layer list is unchanged — but the call is not a no-op: a
new version carrying the same url and layer list is appended (branch-on-
write) and `currentIdx` advances by one. -/
theorem removeLayer_nonexistent_id (s : AppState) (id newId : String) (now : ℕ) :
    (currentVersion s = none → removeLayer s id newId now = s)
    ∧ (∀ cv, currentVersion s = some cv → (∀ l ∈ cv.layers, l.id ≠ id) →
        (removeLayer s id newId now).history
          = s.history.take (s.currentIdx + 1).toNat
            ++ [{ id := newId, url := cv.url, layers := cv.layers,
                  baseLayout := s.baseLayout, prompt := some "Removed Layer",
                  timestamp := now }]
        ∧ (removeLayer s id newId now).currentIdx = s.currentIdx + 1
        ∧ (removeLayer s id newId now).error = s.error) := by
  constructor
  · intro h
    simp [removeLayer, h]
  · intro cv hcv hids
    obtain ⟨hb1, hb2, -⟩ := currentVersion_bounds hcv
    have hfil : cv.layers.filter (fun l => !(l.id == id)) = cv.layers := by
      apply List.filter_eq_self.mpr
      intro a ha
      simpa using hids a ha
    obtain ⟨hh, hi⟩ := addToHistory_spec s cv.url (some "Removed Layer")
      cv.layers none newId now (by omega) hb2
    simp only [Option.getD_none] at hh
    by_cases hact : s.activeLayerId = id
    · simp only [removeLayer, hcv]
      rw [if_pos hact, hfil]
      exact ⟨hh, hi, rfl⟩
    · simp only [removeLayer, hcv]
      rw [if_neg hact, hfil]
      exact ⟨hh, hi, rfl⟩

/-- C3 witness: on a state whose single version has no layers, removing the
absent id `"ghost"` appends a copy-version and advances the index, with no
error set. -/
theorem removeLayer_nonexistent_id_witness :
    currentVersion (mkS [mkV "A"] 0) = some (mkV "A")
    ∧ (removeLayer (mkS [mkV "A"] 0) "ghost" "B" 5).history
        = [mkV "A",
           { id := "B", url := "urlA", layers := [], baseLayout := DEFAULT_LAYOUT,
             prompt := some "Removed Layer", timestamp := 5 }]
    ∧ (removeLayer (mkS [mkV "A"] 0) "ghost" "B" 5).currentIdx = 1
    ∧ (removeLayer (mkS [mkV "A"] 0) "ghost" "B" 5).error = none := by
  have h := (removeLayer_nonexistent_id (mkS [mkV "A"] 0) "ghost" "B" 5).2
    (mkV "A") (by decide) (by decide)
  refine ⟨by decide, ?_, h.2.1, ?_⟩
  · rw [h.1]; decide
  · rw [h.2.2]; rfl

/-- Setting a layout field leaves every other field unchanged. -/
lemma getField_setField_ne (l : Layout) (k k' : LayoutKey) (v : ℚ) (h : k' ≠ k) :
    getField (setField l k v) k' = getField l k' := by
  cases k <;> cases k' <;> simp_all [setField, getField]

/-- Setting a layout field stores exactly the new value there. -/
lemma getField_setField_self (l : Layout) (k : LayoutKey) (v : ℚ) :
    getField (setField l k v) k = v := by
  cases k <;> simp [setField, getField]

/-- C7: with an active version, updating one numeric layout field rewrites
only the version at `currentIdx` in place: history length and index are
unchanged (no version is appended), every other history slot is untouched,
and in the rewritten version only the targeted layout field of the targeted
layout (base or the matching layer) changes.  The hypothesis `hsync` is the
session invariant that the `baseLayout` state mirrors the current version's
stored base layout (maintained by the sync effect, `src/App.tsx` lines
111-115). -/
theorem updateActiveTransform_layout_tweak (s : AppState) (k : LayoutKey) (v : ℚ)
    (cv : ThumbnailVersion) (hcv : currentVersion s = some cv)
    (hsync : s.baseLayout = cv.baseLayout) :
    (updateActiveTransform s k v).history.length = s.history.length
    ∧ (updateActiveTransform s k v).currentIdx = s.currentIdx
    ∧ (∀ j, j ≠ s.currentIdx.toNat →
        (updateActiveTransform s k v).history[j]? = s.history[j]?)
    ∧ (s.activeLayerId = "base" →
        currentVersion (updateActiveTransform s k v)
            = some { cv with baseLayout := setField cv.baseLayout k v }
        ∧ getField (setField cv.baseLayout k v) k = v
        ∧ (∀ k', k' ≠ k →
            getField (setField cv.baseLayout k v) k' = getField cv.baseLayout k'))
    ∧ (s.activeLayerId ≠ "base" →
        ∃ cv', currentVersion (updateActiveTransform s k v) = some cv'
          ∧ cv'.baseLayout = cv.baseLayout
          ∧ cv'.url = cv.url
          ∧ cv'.layers.length = cv.layers.length
          ∧ (∀ (i : ℕ) (l : Layer), cv.layers[i]? = some l → l.id ≠ s.activeLayerId →
              cv'.layers[i]? = some l)
          ∧ (∀ (i : ℕ) (l : Layer), cv.layers[i]? = some l → l.id = s.activeLayerId →
              cv'.layers[i]? = some { l with layout := setField l.layout k v })) := by
  obtain ⟨hb1, hb2, hget⟩ := currentVersion_bounds hcv
  have hlt : s.currentIdx.toNat < s.history.length := by omega
  by_cases hbase : s.activeLayerId = "base"
  · have hstep : updateActiveTransform s k v
        = { s with baseLayout := setField s.baseLayout k v,
                   history := s.history.set s.currentIdx.toNat
                     { cv with baseLayout := setField s.baseLayout k v } } := by
      unfold updateActiveTransform
      rw [if_pos hbase, hcv]
    refine ⟨?_, ?_, ?_, ?_, ?_⟩
    · rw [hstep]
      exact List.length_set ..
    · rw [hstep]
    · intro j hj
      rw [hstep]
      exact List.getElem?_set_ne (Ne.symm hj)
    · intro _
      refine ⟨?_, getField_setField_self .., fun k' hk' => getField_setField_ne _ _ _ _ hk'⟩
      rw [hstep, hsync]
      unfold currentVersion
      rw [if_pos ⟨hb1, by simpa [List.length_set] using hb2⟩]
      exact List.getElem?_set_eq_of_lt _ hlt
    · intro h'
      exact absurd hbase h'
  · have hstep : updateActiveTransform s k v
        = { s with history :=
              (s.history.set s.currentIdx.toNat
                { cv with layers := cv.layers.map (fun l =>
                    if l.id = s.activeLayerId then { l with layout := setField l.layout k v }
                    else l) }) } := by
      unfold updateActiveTransform
      rw [if_neg hbase, hcv]
    refine ⟨?_, ?_, ?_, ?_, ?_⟩
    · rw [hstep]
      exact List.length_set ..
    · rw [hstep]
    · intro j hj
      rw [hstep]
      exact List.getElem?_set_ne (Ne.symm hj)
    · intro h'
      exact absurd h' hbase
    · intro _
      refine ⟨{ cv with layers := cv.layers.map (fun l =>
          if l.id = s.activeLayerId then { l with layout := setField l.layout k v } else l) },
        ?_, rfl, rfl, by simp, ?_, ?_⟩
      · rw [hstep]
        unfold currentVersion
        rw [if_pos ⟨hb1, by simpa [List.length_set] using hb2⟩]
        exact List.getElem?_set_eq_of_lt _ hlt
      · intro i l hl hne
        rw [List.getElem?_map, hl]
        simp [hne]
      · intro i l hl heq
        rw [List.getElem?_map, hl]
        simp [heq]

/-- C7 witness: tweaking `translateX` on the base layout of a one-version
state keeps history length 1 and index 0, and rewrites the stored version's
base layout in place. -/
theorem updateActiveTransform_layout_tweak_witness :
    currentVersion (mkS [vX] 0) = some vX
    ∧ (mkS [vX] 0).baseLayout = vX.baseLayout
    ∧ (updateActiveTransform (mkS [vX] 0) LayoutKey.translateX 25).history.length = 1
    ∧ (updateActiveTransform (mkS [vX] 0) LayoutKey.translateX 25).currentIdx = 0
    ∧ currentVersion (updateActiveTransform (mkS [vX] 0) LayoutKey.translateX 25)
        = some { vX with baseLayout := setField vX.baseLayout LayoutKey.translateX 25 } := by
  have h := updateActiveTransform_layout_tweak (mkS [vX] 0) LayoutKey.translateX 25 vX
    (by decide) rfl
  refine ⟨by decide, rfl, ?_, ?_, ?_⟩
  · rw [h.1]; rfl
  · rw [h.2.1]; rfl
  · exact (h.2.2.2.1 rfl).1

/-- C6: `createSnapshot` is a silent no-op without an active version or an
active project id; with both, and the active id resolving to a stored
project, it rewrites exactly that project, prepending a timestamp-refreshed
copy of the current version to its snapshots and truncating to
`MAX_SNAPSHOTS` — so the snapshot list keeps the new entry first, drops the
oldest entry beyond the cap, and never exceeds `MAX_SNAPSHOTS`. -/
theorem createSnapshot_cap (s : AppState) (now : ℕ) :
    (currentVersion s = none → createSnapshot s now = s)
    ∧ (s.activeProjectId = none → createSnapshot s now = s)
    ∧ (∀ cv pid p, currentVersion s = some cv → s.activeProjectId = some pid →
        (s.projects.find? fun q => q.id == pid) = some p →
        (createSnapshot s now).projects
          = s.projects.map (fun q => if q.id = pid then
              { q with snapshots := some (({ cv with timestamp := now }
                  :: p.snapshots.getD []).take MAX_SNAPSHOTS) }
            else q)
        ∧ (({ cv with timestamp := now } :: p.snapshots.getD []).take MAX_SNAPSHOTS).length
            ≤ MAX_SNAPSHOTS
        ∧ (({ cv with timestamp := now } :: p.snapshots.getD []).take MAX_SNAPSHOTS).length
            = min ((p.snapshots.getD []).length + 1) MAX_SNAPSHOTS
        ∧ ({ cv with timestamp := now } :: p.snapshots.getD []).take MAX_SNAPSHOTS
            = { cv with timestamp := now }
              :: (p.snapshots.getD []).take (MAX_SNAPSHOTS - 1)
        ∧ (createSnapshot s now).history = s.history
        ∧ (createSnapshot s now).currentIdx = s.currentIdx) := by
  refine ⟨?_, ?_, ?_⟩
  · intro h
    cases hap : s.activeProjectId <;> simp [createSnapshot, h, hap]
  · intro h
    cases hcv : currentVersion s <;> simp [createSnapshot, h, hcv]
  · intro cv pid p hcv hpid hfind
    have hred : createSnapshot s now
        = { s with projects := s.projects.map (fun q => if q.id = pid then
            { q with snapshots := some (({ cv with timestamp := now }
                :: p.snapshots.getD []).take MAX_SNAPSHOTS) }
          else q) } := by
      unfold createSnapshot
      rw [hcv, hpid]
      simp [hfind]
    refine ⟨?_, ?_, ?_, ?_, ?_, ?_⟩
    · rw [hred]
    · exact List.length_take_le ..
    · simp [List.length_take, Nat.min_comm]
    · have h11 : MAX_SNAPSHOTS - 1 = 11 := rfl
      rw [h11]
      show List.take (11 + 1) _ = _
      rw [List.take_succ_cons]
    · rw [hred]
    · rw [hred]

/-- C6 witness: snapshotting onto a project already holding `MAX_SNAPSHOTS`
snapshots leaves exactly `MAX_SNAPSHOTS`, with the fresh copy first and the
oldest entry dropped. -/
theorem createSnapshot_cap_witness :
    currentVersion sC6 = some (mkV "A")
    ∧ snapsC6.length = MAX_SNAPSHOTS
    ∧ (createSnapshot sC6 7).projects = [{ projP with snapshots := some snapsC6 }] := by
  have h := (createSnapshot_cap sC6 7).2.2 (mkV "A") "P" projP (by decide) rfl (by decide)
  refine ⟨by decide, ?_, ?_⟩
  · rw [show snapsC6.length = (({ mkV "A" with timestamp := 7 }
      :: projP.snapshots.getD []).take MAX_SNAPSHOTS).length from rfl, h.2.2.1]
    decide
  · rw [h.1]
    decide

/-- A map whose function fixes every element of the list is the identity. -/
lemma map_eq_self_of {α : Type} (l : List α) (f : α → α)
    (h : ∀ x ∈ l, f x = x) : l.map f = l := by
  induction l with
  | nil => rfl
  | cons a t ih =>
    simp only [List.map_cons, h a (by simp)]
    rw [ih fun x hx => h x (by simp [hx])]

/-- C8 counterexample: with an active-project id that refers to no stored
project, saving neither updates nor creates anything — the project list stays
empty and the id stays `"ghost"`, where the claim requires a fresh project to
be prepended and adopted. -/
theorem storeCurrentProjectState_stale_id_counterexample :
    sC8.activeProjectId = some "ghost"
    ∧ sC8.projects = []
    ∧ storeCurrentProjectState sC8 "fresh" 7 = sC8 := by
  decide

/-- C8 (amended): saving with a current version is an upsert keyed on the
NULLNESS of the active-project id, not on membership: a non-null id rewrites
the matching project's `thumbnailUrl`, `revisionStack` and `timestamp` in
place (leaving every other project, and the whole list when no project
matches, unchanged); only a null id creates a fresh sequentially-named
project, prepends it, and adopts it as active.  History and index are
untouched either way. -/
theorem storeCurrentProjectState_upsert (s : AppState) (newId : String) (now : ℕ)
    (cv : ThumbnailVersion) (hcv : currentVersion s = some cv) :
    (∀ pid, s.activeProjectId = some pid →
        (storeCurrentProjectState s newId now).projects
          = s.projects.map (fun p => if p.id = pid then
              { p with thumbnailUrl := cv.url, revisionStack := s.history, timestamp := now }
            else p)
        ∧ (storeCurrentProjectState s newId now).activeProjectId = s.activeProjectId
        ∧ ((∀ p ∈ s.projects, p.id ≠ pid) →
            (storeCurrentProjectState s newId now).projects = s.projects))
    ∧ (s.activeProjectId = none →
        (storeCurrentProjectState s newId now).projects
          = { id := newId, name := "Thumbnail " ++ toString (s.projects.length + 1),
              thumbnailUrl := cv.url, timestamp := now,
              revisionStack := s.history, snapshots := some [] } :: s.projects
        ∧ (storeCurrentProjectState s newId now).activeProjectId = some newId)
    ∧ (storeCurrentProjectState s newId now).history = s.history
    ∧ (storeCurrentProjectState s newId now).currentIdx = s.currentIdx := by
  refine ⟨?_, ?_, ?_, ?_⟩
  · intro pid hpid
    have hred : storeCurrentProjectState s newId now
        = { s with projects := s.projects.map (fun p => if p.id = pid then
            { p with thumbnailUrl := cv.url, revisionStack := s.history, timestamp := now }
          else p) } := by
      unfold storeCurrentProjectState
      rw [hcv, hpid]
    refine ⟨by rw [hred], by rw [hred], ?_⟩
    intro hall
    rw [hred]
    show _ = s.projects
    exact map_eq_self_of _ _ fun p hp => by rw [if_neg (hall p hp)]
  · intro hnone
    have hred : storeCurrentProjectState s newId now
        = { s with
            projects :=
              ({ id := newId, name := "Thumbnail " ++ toString (s.projects.length + 1),
                 thumbnailUrl := cv.url, timestamp := now,
                 revisionStack := s.history, snapshots := some [] } :: s.projects),
            activeProjectId := some newId } := by
      unfold storeCurrentProjectState
      rw [hcv, hnone]
    exact ⟨by rw [hred], by rw [hred]⟩
  · unfold storeCurrentProjectState
    rw [hcv]
    cases s.activeProjectId <;> rfl
  · unfold storeCurrentProjectState
    rw [hcv]
    cases s.activeProjectId <;> rfl

/-- C8 witness: saving with active id `"P"` rewrites the stored project in
place keeping the id active; saving from a state with no active project
prepends a fresh `"Thumbnail 1"` and adopts it. -/
theorem storeCurrentProjectState_upsert_witness :
    currentVersion sC6 = some (mkV "A")
    ∧ (storeCurrentProjectState sC6 "N" 9).projects
        = [{ projP with thumbnailUrl := "urlA", revisionStack := [mkV "A"], timestamp := 9 }]
    ∧ (storeCurrentProjectState sC6 "N" 9).activeProjectId = some "P"
    ∧ (storeCurrentProjectState (mkS [mkV "A"] 0) "N" 9).projects
        = [{ id := "N", name := "Thumbnail 1", thumbnailUrl := "urlA", timestamp := 9,
             revisionStack := [mkV "A"], snapshots := some [] }]
    ∧ (storeCurrentProjectState (mkS [mkV "A"] 0) "N" 9).activeProjectId = some "N" := by
  have h1 := (storeCurrentProjectState_upsert sC6 "N" 9 (mkV "A") (by decide)).1 "P" rfl
  have h2 := (storeCurrentProjectState_upsert (mkS [mkV "A"] 0) "N" 9 (mkV "A")
    (by decide)).2.1 rfl
  refine ⟨by decide, ?_, ?_, ?_, ?_⟩
  · rw [h1.1]; decide
  · rw [h1.2.1]; rfl
  · rw [h2.1]; decide
  · exact h2.2

/-- A state whose history ends in `v` with the index on the last slot has
`v` as its current version. -/
lemma currentVersion_concat {s' : AppState} {t : List ThumbnailVersion}
    {v : ThumbnailVersion} (hh : s'.history = t ++ [v])
    (hi : s'.currentIdx = (t.length : ℤ)) :
    currentVersion s' = some v := by
  unfold currentVersion
  rw [hh, hi]
  rw [if_pos (by constructor <;> simp)]
  rw [Int.toNat_natCast]
  exact List.getElem?_concat_length ..

/-- Case analysis of `handleEdit` once the input guard passes: the compose
failure path, the remote failure path, and the success path, each with the
busy flag cleared at the end. -/
lemma handleEdit_reduction (s : AppState) (cp : Option String)
    (load : String → Option Img) (editR : Except String String)
    (newId : String) (now : ℕ) (cv : ThumbnailVersion)
    (hcv : currentVersion s = some cv)
    (hguard : ¬(rawPromptOf cp s.prompt = "" ∧ s.editMode ≠ EditMode.transform)) :
    (∀ e, composeImage load cv.url s.baseLayout cv.layers = Except.error e →
        handleEdit s cp load editR newId now
          = { s with error := some "Visual synthesis failed. Please try again.",
                     isProcessing := false })
    ∧ (∀ ops, composeImage load cv.url s.baseLayout cv.layers = Except.ok ops →
        (∀ e, editR = Except.error e →
          handleEdit s cp load editR newId now
            = { s with error := some "Visual synthesis failed. Please try again.",
                       isProcessing := false })
        ∧ (∀ r, editR = Except.ok r →
          handleEdit s cp load editR newId now
            = { addToHistory { s with isProcessing := true } r
                  (some (jsOrS (rawPromptOf cp s.prompt) "AI Edit")) []
                  (some DEFAULT_LAYOUT) newId now
                with baseLayout := DEFAULT_LAYOUT, prompt := "",
                     isProcessing := false })) := by
  constructor
  · intro e hcomp
    simp [handleEdit, hcv, hguard, hcomp]
  · intro ops hcomp
    constructor
    · intro e hE
      simp [handleEdit, hcv, hguard, hcomp, hE]
    · intro r hR
      simp [handleEdit, hcv, hguard, hcomp, hR]

/-- C9 counterexample: from a state whose busy flag is already set, both
`handleEdit` and `handleGenerateFromScratch` proceed and append a new version
(history grows from 1 to 2 entries) — the second content-producing operation
is neither rejected nor queued. -/
theorem handleEdit_proceeds_while_busy :
    sBusy.isProcessing = true
    ∧ (handleEdit sBusy none (fun _ => some { width := 100, height := 50 })
        (Except.ok "r") "n" 9).history.length = 2
    ∧ (handleGenerateFromScratch sBusy "t" (Except.ok "g") "n2" 9).history.length = 2 := by
  refine ⟨rfl, ?_, ?_⟩ <;> decide

/-- C9 (amended): the busy flag is cleared on both the success and the
failure path — unconditionally for `handleGenerateFromScratch`, and for
`handleEdit` whenever its input guard passes — but neither handler consults
the flag before running: with the guard passing and the compose and remote
steps succeeding, `handleEdit` appends a new version regardless of the value
of `isProcessing`, so a second content-producing operation started while one
is in flight is not rejected or queued by these handlers (only
`handleChatSubmit` and part of the UI check the flag). -/
theorem busy_flag_cleared_but_not_checked (s : AppState) (cp : Option String)
    (load : String → Option Img) (editR genR : Except String String)
    (tp newId : String) (now : ℕ) :
    (handleGenerateFromScratch s tp genR newId now).isProcessing = false
    ∧ (∀ cv, currentVersion s = some cv →
        ¬(rawPromptOf cp s.prompt = "" ∧ s.editMode ≠ EditMode.transform) →
        (handleEdit s cp load editR newId now).isProcessing = false)
    ∧ (∀ cv ops r, currentVersion s = some cv →
        ¬(rawPromptOf cp s.prompt = "" ∧ s.editMode ≠ EditMode.transform) →
        composeImage load cv.url s.baseLayout cv.layers = Except.ok ops →
        editR = Except.ok r →
        (handleEdit s cp load editR newId now).history
          = sliceToEnd s.history (s.currentIdx + 1)
            ++ [{ id := newId, url := r, layers := [], baseLayout := DEFAULT_LAYOUT,
                  prompt := some (jsOrS (rawPromptOf cp s.prompt) "AI Edit"),
                  timestamp := now }]) := by
  refine ⟨?_, ?_, ?_⟩
  · unfold handleGenerateFromScratch
    cases genR <;> rfl
  · intro cv hcv hguard
    cases hcomp : composeImage load cv.url s.baseLayout cv.layers with
    | error e =>
      obtain ⟨hfail, -⟩ := handleEdit_reduction s cp load editR newId now cv hcv hguard
      rw [hfail e hcomp]
    | ok ops =>
      cases editR with
      | error e =>
        obtain ⟨-, hok⟩ := handleEdit_reduction s cp load (Except.error e) newId now cv
          hcv hguard
        rw [(hok ops hcomp).1 e rfl]
      | ok r =>
        obtain ⟨-, hok⟩ := handleEdit_reduction s cp load (Except.ok r) newId now cv
          hcv hguard
        rw [(hok ops hcomp).2 r rfl]
  · intro cv ops r hcv hguard hcomp hR
    obtain ⟨-, hok⟩ := handleEdit_reduction s cp load editR newId now cv hcv hguard
    rw [(hok ops hcomp).2 r hR]
    rfl

/-- C9 witness: a concrete run of each clause — the generate handler and a
guard-passing edit handler end with the busy flag cleared, and the successful
edit appends the expected reset version. -/
theorem busy_flag_cleared_but_not_checked_witness :
    (handleGenerateFromScratch sBusy "t" (Except.error "boom") "n2" 9).isProcessing = false
    ∧ (handleEdit sBusy none (fun _ => some { width := 100, height := 50 })
        (Except.ok "r") "n" 9).isProcessing = false
    ∧ (handleEdit sBusy none (fun _ => some { width := 100, height := 50 })
        (Except.ok "r") "n" 9).history
        = [mkV "A",
           { id := "n", url := "r", layers := [], baseLayout := DEFAULT_LAYOUT,
             prompt := some "x", timestamp := 9 }] := by
  have h := busy_flag_cleared_but_not_checked sBusy none
    (fun _ => some { width := 100, height := 50 }) (Except.ok "r") (Except.error "boom")
    "t" "n" 9
  refine ⟨h.1, ?_, ?_⟩
  · exact h.2.1 (mkV "A") (by decide) (by decide)
  · rw [h.2.2 (mkV "A") _ "r" (by decide) (by decide) rfl rfl]
    decide

/-- C10: a version appended by a successful remote edit or remote generate
always has an empty layer list and the default base layout — the previous
version's layers enter only the composed raster submitted to the service
(the compose step receives them, hypothesis `hcomp`), never the new
version itself. -/
theorem remote_results_reset_composition (s : AppState) (cp : Option String)
    (load : String → Option Img) (r g tp newId : String) (now : ℕ) :
    (∀ cv ops, currentVersion s = some cv →
        ¬(rawPromptOf cp s.prompt = "" ∧ s.editMode ≠ EditMode.transform) →
        composeImage load cv.url s.baseLayout cv.layers = Except.ok ops →
        ∃ v, (handleEdit s cp load (Except.ok r) newId now).history.getLast? = some v
          ∧ currentVersion (handleEdit s cp load (Except.ok r) newId now) = some v
          ∧ v.layers = [] ∧ v.baseLayout = DEFAULT_LAYOUT ∧ v.url = r)
    ∧ (∃ v, (handleGenerateFromScratch s tp (Except.ok g) newId now).history.getLast? = some v
        ∧ currentVersion (handleGenerateFromScratch s tp (Except.ok g) newId now) = some v
        ∧ v.layers = [] ∧ v.baseLayout = DEFAULT_LAYOUT ∧ v.url = g) := by
  constructor
  · intro cv ops hcv hguard hcomp
    obtain ⟨-, hok⟩ := handleEdit_reduction s cp load (Except.ok r) newId now cv hcv hguard
    rw [(hok ops hcomp).2 r rfl]
    refine ⟨{ id := newId, url := r, layers := [], baseLayout := DEFAULT_LAYOUT,
              prompt := some (jsOrS (rawPromptOf cp s.prompt) "AI Edit"),
              timestamp := now },
      ?_, ?_, rfl, rfl, rfl⟩
    · exact List.getLast?_concat _
    · apply currentVersion_concat
      · rfl
      · simp [addToHistory]
  · refine ⟨{ id := newId, url := g, layers := [], baseLayout := DEFAULT_LAYOUT,
              prompt := some tp, timestamp := now }, ?_, ?_, rfl, rfl, rfl⟩
    · exact List.getLast?_concat _
    · apply currentVersion_concat
      · rfl
      · simp [handleGenerateFromScratch, addToHistory]

/-- C10 witness: a successful edit and a successful generate from a concrete
state each leave a current version with no layers and the default layout. -/
theorem remote_results_reset_composition_witness :
    (∃ v, (handleEdit sBusy none (fun _ => some { width := 100, height := 50 })
        (Except.ok "r") "n" 9).history.getLast? = some v
      ∧ currentVersion (handleEdit sBusy none (fun _ => some { width := 100, height := 50 })
          (Except.ok "r") "n" 9) = some v
      ∧ v.layers = [] ∧ v.baseLayout = DEFAULT_LAYOUT ∧ v.url = "r")
    ∧ (∃ v, (handleGenerateFromScratch sBusy "t" (Except.ok "g") "n" 9).history.getLast?
          = some v
      ∧ currentVersion (handleGenerateFromScratch sBusy "t" (Except.ok "g") "n" 9) = some v
      ∧ v.layers = [] ∧ v.baseLayout = DEFAULT_LAYOUT ∧ v.url = "g") := by
  have h := remote_results_reset_composition sBusy none
    (fun _ => some { width := 100, height := 50 }) "r" "g" "t" "n" 9
  exact ⟨h.1 (mkV "A") _ (by decide) (by decide) rfl, h.2⟩
